import Mathlib

/-!
Verification of the audio subsystem of the map-to-game creation tool.

Shallow embedding of:
  - `SoundEffect` (src/src/game/engine/audio/SoundEffect.ts)
  - `AudioManager` (src/src/game/engine/audio/AudioManager.ts)
  - `MusicPlayer` and `AudioGenerator` (the background-music player and the
    procedural waveform generator)

Volumes, rates and times are modelled as rationals; the DOM audio element is
modelled as a record of the fields the subsystem reads and writes; fallible
operations (asset loading, transport play acceptance) are driven by an explicit
environment record and return `Except`, with the try/catch blocks of the source
translated as explicit recovery on the error branch.
-/

namespace Audio

/-- Clamp helper used throughout the source: `Math.max(lo, Math.min(hi, x))`. -/
def clampQ (lo hi x : ℚ) : ℚ := max lo (min hi x)

/-- `Map.get(key)` on the string-keyed maps of the subsystem (loaded tracks,
sound catalog, sound pools, localStorage). -/
def assocFind {β : Type} (n : String) : List (String × β) → Option β
  | [] => none
  | (k, v) :: tl => if n = k then some v else assocFind n tl

/-- Mutating the value stored under one key of a string-keyed map, expressed
entrywise: the entry whose key matches is replaced, every other entry is
kept. -/
def updatePair {β : Type} (n : String) (f : β → β) : String × β → String × β
  | (k, v) => if k = n then (k, f v) else (k, v)

/-! ## The audio element

Model of the fields of `HTMLAudioElement` that the subsystem reads or writes:
`volume`, `playbackRate`, `paused`, `currentTime`, `ended`. -/

structure AudioElem where
  volume : ℚ
  playbackRate : ℚ
  paused : Bool
  currentTime : ℚ
  ended : Bool
  deriving Repr, DecidableEq

/-! ## SoundEffect (src/src/game/engine/audio/SoundEffect.ts) -/

/-- `SoundOptions` from SoundEffect.ts: all fields optional. -/
structure SoundOptions where
  volume : Option ℚ := none
  loop : Option Bool := none
  playbackRate : Option ℚ := none
  preload : Option Bool := none
  deriving Repr, DecidableEq

/-- The state of one `SoundEffect` instance: its private `_volume`, `_loaded`,
`_error` flags and the wrapped audio element. -/
structure SEState where
  vol : ℚ
  loaded : Bool
  seError : Bool
  audio : AudioElem
  deriving Repr, DecidableEq

namespace SoundEffect

/-- The `SoundEffect` constructor: stores `options.volume ?? 1` in `_volume`
(WITHOUT clamping), sets `audio.loop = options.loop ?? false`,
`audio.playbackRate = options.playbackRate ?? 1.0` (WITHOUT clamping) and
`audio.volume = this._volume`. -/
def construct (options : SoundOptions) : SEState :=
  let v := options.volume.getD 1
  { vol := v
    loaded := false
    seError := false
    audio :=
      { volume := v
        playbackRate := options.playbackRate.getD 1
        paused := true
        currentTime := 0
        ended := false } }

/-- `setVolume(volume)`: `this._volume = Math.max(0, Math.min(1, volume));
this.audio.volume = this._volume`. -/
def setVolume (s : SEState) (volume : ℚ) : SEState :=
  let v := clampQ 0 1 volume
  { s with vol := v, audio := { s.audio with volume := v } }

/-- Per-call overrides accepted by `play(options?)`. -/
structure PlayOverrides where
  volume : Option ℚ := none
  playbackRate : Option ℚ := none
  deriving Repr, DecidableEq

/-- Environment describing whether the fallible external steps succeed:
asset loading and transport `play()` acceptance. -/
structure PlayEnv where
  loadOk : Bool
  playOk : Bool
  deriving Repr, DecidableEq

/-- The body of `play()` without its surrounding try/catch: each `Except.error`
carries the state as mutated at the point the underlying operation threw.
Order of operations follows the source: await `load()` when neither loaded nor
errored; early return when errored; apply the volume override (clamped to
[0,1]) or the stored volume; apply the rate override (clamped to [0.25,4.0])
when present; reset `currentTime` to 0; await transport `play()`. -/
def playCore (s : SEState) (ov : PlayOverrides) (env : PlayEnv) :
    Except (SEState × String) SEState :=
  let step1 : Except (SEState × String) SEState :=
    if s.loaded = false ∧ s.seError = false then
      if env.loadOk then Except.ok { s with loaded := true, seError := false }
      else Except.error ({ s with seError := true, loaded := false }, "Failed to load sound")
    else Except.ok s
  match step1 with
  | Except.error e => Except.error e
  | Except.ok s1 =>
    if s1.seError then Except.ok s1
    else
      let a2 :=
        match ov.volume with
        | some v => { s1.audio with volume := clampQ 0 1 v }
        | none => { s1.audio with volume := s1.vol }
      let a3 :=
        match ov.playbackRate with
        | some r => { a2 with playbackRate := clampQ (1/4) 4 r }
        | none => a2
      let s3 := { s1 with audio := { a3 with currentTime := 0 } }
      if env.playOk then
        Except.ok { s3 with audio := { s3.audio with paused := false, ended := false } }
      else Except.error (s3, "transport rejected play")

/-- `play()` as exposed: the whole body is wrapped in try/catch, a failure is
logged and the method returns normally with whatever mutations happened. -/
def play (s : SEState) (ov : PlayOverrides) (env : PlayEnv) : SEState :=
  match playCore s ov env with
  | Except.ok s2 => s2
  | Except.error (s2, _) => s2

/-- The `playing` getter:
`!this.audio.paused && this.audio.currentTime > 0 && !this.audio.ended`. -/
def playing (s : SEState) : Bool :=
  s.audio.paused = false && decide (0 < s.audio.currentTime) && s.audio.ended = false

end SoundEffect

/-! ## AudioManager settings (src/src/game/engine/audio/AudioManager.ts)

`AudioSettings` has six optional fields; the in-code default object populates
all of them, so the manager state carries a full record, while partial updates
and the persisted JSON blob are records of options. -/

/-- A fully-populated `AudioSettings` object. -/
structure Settings where
  masterVolume : ℚ
  sfxVolume : ℚ
  musicVolume : ℚ
  muted : Bool
  sfxMuted : Bool
  musicMuted : Bool
  deriving Repr, DecidableEq

/-- A `Partial<AudioSettings>`: the argument of `updateSettings` and the shape
read back from the persisted JSON blob (keys may be absent). -/
structure SettingsPatch where
  masterVolume : Option ℚ := none
  sfxVolume : Option ℚ := none
  musicVolume : Option ℚ := none
  muted : Option Bool := none
  sfxMuted : Option Bool := none
  musicMuted : Option Bool := none
  deriving Repr, DecidableEq

/-- The in-code defaults of the private `settings` field. -/
def defaultSettings : Settings :=
  { masterVolume := 1
    sfxVolume := 4/5
    musicVolume := 7/10
    muted := false
    sfxMuted := false
    musicMuted := false }

/-- JavaScript object spread `{ ...s, ...p }`: each key present in the patch
overrides the corresponding key of `s`. -/
def mergeSettings (s : Settings) (p : SettingsPatch) : Settings :=
  { masterVolume := p.masterVolume.getD s.masterVolume
    sfxVolume := p.sfxVolume.getD s.sfxVolume
    musicVolume := p.musicVolume.getD s.musicVolume
    muted := p.muted.getD s.muted
    sfxMuted := p.sfxMuted.getD s.sfxMuted
    musicMuted := p.musicMuted.getD s.musicMuted }

/-- `JSON.stringify(this.settings)`: serialising the full settings object
yields a blob in which every key is present. -/
def settingsToPatch (s : Settings) : SettingsPatch :=
  { masterVolume := some s.masterVolume
    sfxVolume := some s.sfxVolume
    musicVolume := some s.musicVolume
    muted := some s.muted
    sfxMuted := some s.sfxMuted
    musicMuted := some s.musicMuted }

/-- localStorage, restricted to parsable settings blobs: reading a key that
is absent (or holds an unparsable value) yields `none`. -/
structure Store where
  cells : List (String × SettingsPatch)
  deriving Repr, DecidableEq

/-- The fixed persistence key. -/
def settingsKey : String := "mario-audio-settings"

/-- `saveSettings()`: writes `JSON.stringify(this.settings)` under the fixed
key (assuming the write succeeds). -/
def saveSettings (s : Settings) (st : Store) : Store :=
  { cells := (settingsKey, settingsToPatch s) :: st.cells }

/-- `loadSettings()` as run by the constructor: starts from the in-code
defaults and, when a parsable blob is stored under the fixed key, merges it
over them (`this.settings = { ...this.settings, ...parsedSettings }`); absent
or corrupt storage silently keeps the defaults. -/
def loadSettings (st : Store) : Settings :=
  match assocFind settingsKey st.cells with
  | none => defaultSettings
  | some p => mergeSettings defaultSettings p

/-! ## AudioManager state and operations -/

/-- A pooled clone entry as built by `createSoundPool`: name suffixed with the
index, and its own independent `SoundEffect` state. -/
structure PoolEntry where
  cloneName : String
  st : SEState
  deriving Repr, DecidableEq

/-- The manager state: settings, the catalog of sound effects, the fixed-size
sound pools and the persisted store. -/
structure AMState where
  settings : Settings
  soundEffects : List (String × SEState)
  soundPools : List (String × List PoolEntry)
  store : Store
  deriving Repr, DecidableEq

namespace AudioManager

/-- The manager constructor reads the persisted settings and merges them over
the in-code defaults. -/
def construct (st : Store) : AMState :=
  { settings := loadSettings st
    soundEffects := []
    soundPools := []
    store := st }

/-- `updateSettings(newSettings)`:
`this.settings = { ...this.settings, ...newSettings }` then `saveSettings()`
persists the whole merged object. -/
def updateSettings (m : AMState) (p : SettingsPatch) : AMState :=
  let s := mergeSettings m.settings p
  { m with settings := s, store := saveSettings s m.store }

/-- `getSettings()` returns (a copy of) the settings object. -/
def getSettings (m : AMState) : Settings := m.settings

/-- `createSoundPool(name, src, options, poolSize)`: pushes `poolSize` fresh
`SoundEffect` clones named `name_i` into a new pool list. -/
def createSoundPool (name : String) (options : SoundOptions) (poolSize : ℕ) :
    List PoolEntry :=
  (List.range poolSize).map fun i =>
    { cloneName := name ++ "_" ++ toString i, st := SoundEffect.construct options }

/-- `getPooledSound(name)`: `null` when no pool exists for the name; otherwise
the first clone that is not currently playing
(`pool.find(sound => !sound.playing)`), falling back to `pool[0]` when every
clone is playing. -/
def getPooledSound (pools : List (String × List PoolEntry)) (name : String) :
    Option (ℕ × PoolEntry) :=
  match assocFind name pools with
  | none => none
  | some pool =>
    match pool.findIdx? (fun e => !SoundEffect.playing e.st) with
    | some i => (pool.get? i).map fun e => (i, e)
    | none => (pool.get? 0).map fun e => (0, e)

/-- Where `playSound` resolves a name: a pooled clone when a pool exists,
otherwise the catalog entry. -/
inductive Resolved where
  | pooled (i : ℕ) (e : PoolEntry)
  | catalog (s : SEState)
  deriving Repr, DecidableEq

/-- The resolution order of `playSound`: pooled instance first, then the
`soundEffects` catalog, else none (log-and-return). -/
def resolveSound (m : AMState) (name : String) : Option Resolved :=
  match getPooledSound m.soundPools name with
  | some (i, e) => some (Resolved.pooled i e)
  | none =>
    match assocFind name m.soundEffects with
    | some s => some (Resolved.catalog s)
    | none => none

/-- The effective volume computed inside `playSound`:
`(options?.volume ?? 1.0) * this.settings.sfxVolume! * this.settings.masterVolume!`,
read from the current settings at each call. -/
def finalVolume (s : Settings) (ov : SoundEffect.PlayOverrides) : ℚ :=
  ov.volume.getD 1 * s.sfxVolume * s.masterVolume

/-- The volume argument `playSound` passes to the resolved instance
`play()` call, or `none` when the call is a no-op (muted, sfx-muted, or the
name resolves to nothing). -/
def playSoundCallVolume (m : AMState) (name : String)
    (ov : SoundEffect.PlayOverrides) : Option ℚ :=
  if m.settings.muted || m.settings.sfxMuted then none
  else
    match resolveSound m name with
    | none => none
    | some _ => some (finalVolume m.settings ov)

/-- Replace the state of the clone at index `i` of the pool for `name`. -/
def setPoolEntry (pools : List (String × List PoolEntry)) (name : String)
    (i : ℕ) (s : SEState) : List (String × List PoolEntry) :=
  pools.map (updatePair name fun pool =>
    pool.mapIdx fun j e => if j = i then { e with st := s } else e)

/-- Replace the catalog entry for `name`. -/
def setCatalogEntry (sounds : List (String × SEState)) (name : String)
    (s : SEState) : List (String × SEState) :=
  sounds.map (updatePair name fun _ => s)

/-- `playSound(name, options?)`: no-op when muted or sfx-muted; resolves a
pooled clone first, then the catalog; computes the effective volume fresh from
the current settings and delegates to the instance `play()` with the volume
override replaced by the effective volume. The body sits in a try/catch, so a
transport failure mutates the instance but the method returns normally. -/
def playSound (m : AMState) (name : String) (ov : SoundEffect.PlayOverrides)
    (env : SoundEffect.PlayEnv) : AMState :=
  if m.settings.muted || m.settings.sfxMuted then m
  else
    match resolveSound m name with
    | none => m
    | some (Resolved.pooled i e) =>
      let fv := finalVolume m.settings ov
      let s2 := SoundEffect.play e.st { ov with volume := some fv } env
      { m with soundPools := setPoolEntry m.soundPools name i s2 }
    | some (Resolved.catalog s) =>
      let fv := finalVolume m.settings ov
      let s2 := SoundEffect.play s { ov with volume := some fv } env
      { m with soundEffects := setCatalogEntry m.soundEffects name s2 }

/-- Wall-clock progress between two `playSound` calls: the transport of every
unpaused pooled clone advances by `dt` (so a clone started earlier reports
`playing = true` on the next call). -/
def tickPools (m : AMState) (dt : ℚ) : AMState :=
  { m with soundPools := m.soundPools.map fun p =>
      (p.1, p.2.map fun e =>
        if e.st.audio.paused = false then
          { e with st := { e.st with audio :=
              { e.st.audio with currentTime := e.st.audio.currentTime + dt } } }
        else e) }

/-- Loading a manager for the pool-exhaustion scenario: default settings, no
catalog entries, one pool of 3 clones for the name coin. -/
def coinPoolManager : AMState :=
  { settings := defaultSettings
    soundEffects := []
    soundPools := [("coin", AudioManager.createSoundPool "coin" {} 3)]
    store := { cells := [] } }

/-- One beat of the pool-exhaustion scenario: a successful `playSound` call
followed by 100 ms of wall-clock playback, so the clone just started reports
`playing = true` at the next call. -/
def coinStep (m : AMState) : AMState :=
  AudioManager.tickPools
    (AudioManager.playSound m "coin" {} { loadOk := true, playOk := true })
    (1/10)

end AudioManager

/-! ## MusicPlayer (the background-music player of the subsystem)

The player owns `currentTrack` (modelled by name), the `loadedTracks` cache,
the private `_volume` and `_muted` flags and the set of live fade-interval
handles. Awaited fades are modelled two ways: the tick-by-tick level sequence
(`fadeInLevels`, and the crossfade trace below) for the temporal claims, and
their net effect (the ramp ends by assigning the exact target level) for the
operations that merely await them. -/

structure MPState where
  currentTrack : Option String
  tracks : List (String × AudioElem)
  vol : ℚ
  muted : Bool
  fadeIntervals : List ℕ
  deriving Repr, DecidableEq

namespace MusicPlayer

/-- Update the cached audio element of one track name in place. -/
def updateTrack (s : MPState) (name : String) (f : AudioElem → AudioElem) :
    MPState :=
  { s with tracks := s.tracks.map (updatePair name f) }

/-- Look up the cached audio element of a track name. -/
def getTrack (s : MPState) (name : String) : Option AudioElem :=
  assocFind name s.tracks

/-- The `audio.volume` read of a loaded track (0 when absent; the source only
reads it on tracks it holds a live reference to). -/
def trackVolume (s : MPState) (name : String) : ℚ :=
  match assocFind name s.tracks with
  | some el => el.volume
  | none => 0

/-! ### The fadeIn tick loop -/

/-- The level the fadeIn interval callback writes at tick `k`:
`Math.min(targetVolume, startVolume + volumeStep * currentStep)` with
`startVolume = 0` and `volumeStep = (targetVolume - 0) / 60`. -/
def fadeInTickLevel (target : ℚ) (k : ℕ) : ℚ :=
  min target (0 + (target - 0) / 60 * k)

/-- The sequence of levels the fadeIn loop writes, starting after tick `k`
with the given callback budget: each callback increments the step counter,
writes the clamped level, and when `currentStep >= 60` or the level has
reached the target it clears the interval and writes the exact target. -/
def fadeInLoop (target : ℚ) (k fuel : ℕ) : List ℚ :=
  match fuel with
  | 0 => []
  | fuel + 1 =>
    if 60 ≤ k + 1 ∨ target ≤ fadeInTickLevel target (k + 1) then
      [fadeInTickLevel target (k + 1), target]
    else fadeInTickLevel target (k + 1) :: fadeInLoop target (k + 1) fuel

/-- All levels written by one complete `fadeIn` ramp (the loop needs at most
60 callbacks before the step counter alone terminates it). -/
def fadeInLevels (target : ℚ) : List ℚ :=
  fadeInLoop target 0 60

/-! ### Net effects of awaited ramps -/

/-- Net effect of an awaited `fadeIn(audio, d)`: the ramp terminates by
assigning `audio.volume = targetVolume` with target `this._volume`; the
interval handle is added to and then removed from the live set. -/
def fadeInNet (s : MPState) (name : String) : MPState :=
  updateTrack s name fun el => { el with volume := s.vol }

/-- Net effect of an awaited `fadeOut(audio, d)`: the ramp terminates by
assigning `audio.volume = 0`. The transport is not touched. -/
def fadeOutNet (s : MPState) (name : String) : MPState :=
  updateTrack s name fun el => { el with volume := 0 }

/-! ### Crossfade, tick by tick -/

/-- One scheduler event during the concurrent ramps of a crossfade: a
fade-out callback on the old track, a fade-in callback on the new track, or
the exact terminal assignment of either ramp. -/
inductive CfEv where
  | tickA (k : ℕ)
  | tickB (k : ℕ)
  | finA
  | finB
  deriving Repr, DecidableEq

/-- Apply one crossfade ramp event. The fade-out callback writes
`Math.max(0, startVolume - (startVolume/60) * currentStep)` on the old track;
the fade-in callback writes `Math.min(target, (target/60) * currentStep)` on
the new track; the terminal assignments write the exact ramp targets. -/
def cfStep (a b : String) (startA target : ℚ) (e : CfEv) (s : MPState) :
    MPState :=
  match e with
  | CfEv.tickA k => updateTrack s a fun el =>
      { el with volume := max 0 (startA - startA / 60 * k) }
  | CfEv.tickB k => updateTrack s b fun el =>
      { el with volume := min target (0 + (target - 0) / 60 * k) }
  | CfEv.finA => updateTrack s a fun el => { el with volume := 0 }
  | CfEv.finB => updateTrack s b fun el => { el with volume := target }

/-- The states visited while the two ramps of a crossfade run, under an
arbitrary interleaving of their callbacks. -/
def cfStates (s : MPState) (a b : String) (startA target : ℚ) :
    List CfEv → List MPState
  | [] => []
  | e :: rest =>
    cfStep a b startA target e s ::
      cfStates (cfStep a b startA target e s) a b startA target rest

/-- The first statements of `crossfade`: `toAudio.currentTime = 0;
toAudio.volume = 0`. -/
def crossfadeInit (s : MPState) (b : String) : MPState :=
  updateTrack s b fun el => { el with currentTime := 0, volume := 0 }

/-- `await toAudio.play()` accepted: the new track transport starts. -/
def crossfadePlayB (s : MPState) (b : String) : MPState :=
  updateTrack s b fun el => { el with paused := false, ended := false }

/-- The cleanup block after both ramps resolved: `fromAudio.pause();
fromAudio.currentTime = 0; this.currentTrack = toAudio`. -/
def crossfadeCleanup (s : MPState) (a b : String) : MPState :=
  let s2 := updateTrack s a fun el => { el with paused := true, currentTime := 0 }
  { s2 with currentTrack := some b }

/-- The abort path of `crossfade`: `toAudio.play()` rejected, the error is
logged and the method returns before either ramp starts and before the old
track or the current-track slot is touched. -/
def crossfadeFailed (s : MPState) (b : String) : MPState :=
  crossfadeInit s b

/-- Every state of a successful `crossfade(fromAudio = a, toAudio = b, d)`
run, in order: the entry state, the state after the init statements and the
accepted `toAudio.play()`, one state per ramp callback under the given
interleaving, and the state after the cleanup block. -/
def crossfadeTrace (s : MPState) (a b : String) (evs : List CfEv) :
    List MPState :=
  let s1 := crossfadePlayB (crossfadeInit s b) b
  let startA := trackVolume s1 a
  let target := s.vol
  let ramp := cfStates s1 a b startA target evs
  let rampEnd := ramp.getLast?.getD s1
  s :: (s1 :: ramp) ++ [crossfadeCleanup rampEnd a b]

/-- The net state transition of `crossfade`, as used by `play`. -/
def crossfadeRun (s : MPState) (a b : String) (playOk : Bool)
    (evs : List CfEv) : MPState :=
  if playOk then ((crossfadeTrace s a b evs).getLast?).getD s
  else crossfadeFailed s b

/-! ### Player operations -/

/-- Environment for the fallible steps of `play`. -/
structure MPEnv where
  loadOk : Bool
  playOk : Bool
  deriving Repr, DecidableEq

/-- `loadTrack(track)` (successful path): returns the cached element when the
name is already loaded; otherwise creates a fresh element with
`audio.volume = 0` (start at 0 for fade-in) and caches it. -/
def loadTrack (s : MPState) (name : String) : MPState :=
  if (assocFind name s.tracks).isSome then s
  else
    { s with tracks := s.tracks ++
        [(name, { volume := 0, playbackRate := 1, paused := true,
                  currentTime := 0, ended := false })] }

/-- The non-crossfade branch of `play`: `this.currentTrack = audio;
audio.currentTime = 0; await audio.play();
if (!this._muted) await this.fadeIn(audio, d)`. A rejected transport play is
caught by the try/catch of `play`, after `currentTrack` was already
reassigned. -/
def playFreshBranch (s1 : MPState) (name : String) (playOk : Bool) : MPState :=
  let s2 := { s1 with currentTrack := some name }
  let s3 := updateTrack s2 name fun el => { el with currentTime := 0 }
  if playOk then
    let s4 := updateTrack s3 name fun el => { el with paused := false, ended := false }
    if s4.muted = false then fadeInNet s4 name else s4
  else s3

/-- `play(track)`: loads (a load rejection is caught and the state is
unchanged: the fresh element is only cached after a successful load), then
either crossfades from a different current track or starts the target with a
fade-in (skipped when muted). -/
def play (s : MPState) (name : String) (env : MPEnv) (evs : List CfEv) :
    MPState :=
  if env.loadOk = false ∧ (assocFind name s.tracks).isNone then s
  else
    let s1 := loadTrack s name
    match s1.currentTrack with
    | some cur =>
      if cur = name then playFreshBranch s1 name env.playOk
      else crossfadeRun s1 cur name env.playOk evs
    | none => playFreshBranch s1 name env.playOk

/-- `pause(fadeOutDuration?)`: no-op without a current track; with a positive
duration while unmuted it awaits `fadeOut(this.currentTrack, duration)` (and
nothing else); otherwise it calls `this.currentTrack.pause()`. -/
def pause (s : MPState) (fadeOutDuration : Option ℚ) : MPState :=
  match s.currentTrack with
  | none => s
  | some t =>
    let duration := fadeOutDuration.getD 500
    if 0 < duration ∧ s.muted = false then fadeOutNet s t
    else updateTrack s t fun el => { el with paused := true }

/-- `setVolume(volume)`: clamps to [0,1], stores, and applies to the current
track when one exists and the player is not muted. -/
def setVolume (s : MPState) (volume : ℚ) : MPState :=
  let v := clampQ 0 1 volume
  let s2 := { s with vol := v }
  match s2.currentTrack with
  | some t =>
    if s2.muted = false then updateTrack s2 t fun el => { el with volume := v }
    else s2
  | none => s2

/-- `setMuted(muted)`: stores the flag and, when a current track exists, sets
its output to 0 (muting) or to the stored volume (unmuting). -/
def setMuted (s : MPState) (m : Bool) : MPState :=
  let s2 := { s with muted := m }
  match s2.currentTrack with
  | some t => updateTrack s2 t fun el => { el with volume := if m then 0 else s2.vol }
  | none => s2

/-- The `playing` getter:
`this.currentTrack ? !this.currentTrack.paused : false`. -/
def isPlaying (s : MPState) : Bool :=
  match s.currentTrack with
  | some t =>
    match assocFind t s.tracks with
    | some el => el.paused = false
    | none => false
  | none => false

/-- A two-track player (current track a playing, track b preloaded) used to
instantiate the crossfade claim. -/
def cfScenarioStart : MPState :=
  { currentTrack := some "a"
    tracks := [("a", { volume := 7/10, playbackRate := 1, paused := false,
                       currentTime := 3, ended := false }),
               ("b", { volume := 0, playbackRate := 1, paused := true,
                       currentTime := 0, ended := false })]
    vol := 7/10
    muted := false
    fadeIntervals := [] }

end MusicPlayer

/-! ## AudioGenerator (the procedural waveform synthesizer)

Samples live in an arbitrary linear ordered field with a floor, and the
transcendental functions of the host (`Math.sin`, `Math.exp`, `Math.PI`) are
supplied as an explicit structure, so every definition stays executable and
the per-sample formulas can be compared symbolically. -/

/-- The host math functions the generator calls. -/
structure MathR (R : Type) where
  rsin : R → R
  rexp : R → R
  rpi : R

/-- `OscillatorType` values handled by `generateBeep`. -/
inductive OscType where
  | sine
  | square
  | sawtooth
  | triangle
  deriving Repr, DecidableEq

namespace AudioGenerator

variable {R : Type} [LinearOrderedField R] [FloorRing R]

/-- The switch on the oscillator type inside the sample loop of
`generateBeep`, producing the raw waveform value at time `t`. -/
def waveSample (M : MathR R) (ty : OscType) (frequency t : R) : R :=
  match ty with
  | OscType.sine => M.rsin (2 * M.rpi * frequency * t)
  | OscType.square => if 0 < M.rsin (2 * M.rpi * frequency * t) then 1 else -1
  | OscType.sawtooth =>
    2 * (frequency * t - (⌊frequency * t + 1/2⌋ : ℤ))
  | OscType.triangle =>
    2 * |2 * (frequency * t - (⌊frequency * t + 1/2⌋ : ℤ))| - 1

/-- The `i`-th raw sample written by `generateBeep`: `t = i / sampleRate`,
`envelope = Math.exp(-t * 3)`, `channelData[i] = sample * envelope * 0.3`. -/
def generateBeepSample (M : MathR R) (frequency sampleRate : R) (ty : OscType)
    (i : ℕ) : R :=
  let t := (i : R) / sampleRate
  let envelope := M.rexp (-t * 3)
  waveSample M ty frequency t * envelope * (3/10)

/-- The waveform as a function of the phase `θ = 2π f t`, as the spec words
it; each oscillator type of the source is one such function. -/
def oscFn (M : MathR R) (ty : OscType) : R → R :=
  match ty with
  | OscType.sine => M.rsin
  | OscType.square => fun θ => if 0 < M.rsin θ then 1 else -1
  | OscType.sawtooth => fun θ =>
    2 * (θ / (2 * M.rpi) - (⌊θ / (2 * M.rpi) + 1/2⌋ : ℤ))
  | OscType.triangle => fun θ =>
    2 * |2 * (θ / (2 * M.rpi) - (⌊θ / (2 * M.rpi) + 1/2⌋ : ℤ))| - 1

/-- The sample formula exactly as the spec states it: the `i`-th raw sample
(at `t = i / sampleRate`) is `waveform(2π f t) × e^(−3t) × 0.3`. -/
def beepSampleSpec (M : MathR R) (waveform : R → R)
    (frequency sampleRate : R) (i : ℕ) : R :=
  let t := (i : R) / sampleRate
  waveform (2 * M.rpi * frequency * t) * M.rexp (-(3 * t)) * (3/10)

/-! ### The WAV encoder (`audioBufferToWav`) -/

/-- `writeString`: one byte per character, `charCodeAt`. -/
def writeStringBytes (s : String) : List ℕ :=
  s.data.map Char.toNat

/-- `view.setUint16(offset, n, true)`: two bytes, little-endian. -/
def u16le (n : ℕ) : List ℕ :=
  [n % 256, n / 256 % 256]

/-- `view.setUint32(offset, n, true)`: four bytes, little-endian. -/
def u32le (n : ℕ) : List ℕ :=
  [n % 256, n / 256 % 256, n / 65536 % 256, n / 16777216 % 256]

/-- The ToInteger conversion `setInt16` applies to its float argument:
truncation toward zero. -/
def jsTrunc (x : R) : ℤ :=
  if x < 0 then -⌊-x⌋ else ⌊x⌋

/-- The 16-bit two-complement pattern of an integer, as stored by
`setInt16`. -/
def toUint16 (n : ℤ) : ℕ :=
  (n % 65536).toNat

/-- `view.setInt16(offset, n, true)`: two bytes, little-endian. -/
def i16le (n : ℤ) : List ℕ :=
  [toUint16 n % 256, toUint16 n / 256]

/-- `Math.max(-1, Math.min(1, channelData[i]))`. -/
def clampSample (x : R) : R :=
  max (-1) (min 1 x)

/-- The integer stored for one sample:
`view.setInt16(offset, sample * 0x7FFF, true)` after clamping. -/
def encodeSample (x : R) : ℤ :=
  jsTrunc (clampSample x * 32767)

/-- The 44-byte WAV header written by `audioBufferToWav`, in offset order:
RIFF chunk, size, WAVE, fmt chunk (size 16, format 1, channels 1, sample
rate, byte rate, block align 2, bits per sample 16), data chunk. -/
def wavHeader (length sampleRate : ℕ) : List ℕ :=
  writeStringBytes ("RIFF") ++ u32le (36 + length * 2) ++
  writeStringBytes ("WAVE") ++ writeStringBytes ("fmt ") ++
  u32le 16 ++ u16le 1 ++ u16le 1 ++ u32le sampleRate ++
  u32le (sampleRate * 2) ++ u16le 2 ++ u16le 16 ++
  writeStringBytes ("data") ++ u32le (length * 2)

/-- The full byte content of the WAV blob: the header followed by the
16-bit little-endian encoding of every clamped, scaled sample. -/
def audioBufferToWav (samples : List R) (sampleRate : ℕ) : List ℕ :=
  wavHeader samples.length sampleRate ++
  samples.flatMap (fun x => i16le (encodeSample x))

/-- `generateBeep` end to end: the raw sample buffer of `frameCount` frames
on one mono channel, passed through `audioBufferToWav`. -/
def generateBeep (M : MathR R) (frequency : R) (ty : OscType)
    (sampleRateN frameCount : ℕ) : List ℕ :=
  audioBufferToWav
    ((List.range frameCount).map
      (generateBeepSample M frequency (sampleRateN : R) ty))
    sampleRateN

end AudioGenerator

/-! ## Shared lemmas about association-list lookup -/

theorem updatePair_eq {β : Type} (n : String) (f : β → β) (v : β) :
    updatePair n f (n, v) = (n, f v) := by
  simp [updatePair]

theorem updatePair_ne {β : Type} (k n : String) (f : β → β) (v : β)
    (h : k ≠ n) : updatePair n f (k, v) = (k, v) := by
  simp [updatePair, h]

theorem assocFind_update_eq {β : Type} (l : List (String × β)) (n : String)
    (f : β → β) :
    assocFind n (l.map (updatePair n f)) = (assocFind n l).map f := by
  induction l with
  | nil => rfl
  | cons hd tl ih =>
    obtain ⟨k, v⟩ := hd
    rw [List.map_cons]
    by_cases hk : k = n
    · subst hk
      rw [updatePair_eq]
      simp [assocFind, ih]
    · rw [updatePair_ne k n f v hk]
      have hk2 : n ≠ k := fun h => hk h.symm
      simp [assocFind, hk2, ih]

theorem assocFind_update_ne {β : Type} (l : List (String × β)) (m n : String)
    (f : β → β) (h : m ≠ n) :
    assocFind m (l.map (updatePair n f)) = assocFind m l := by
  induction l with
  | nil => rfl
  | cons hd tl ih =>
    obtain ⟨k, v⟩ := hd
    rw [List.map_cons]
    by_cases hk : k = n
    · subst hk
      rw [updatePair_eq]
      simp [assocFind, h, ih]
    · rw [updatePair_ne k n f v hk]
      simp [assocFind, ih]

theorem assocFind_append_right {β : Type} (l1 l2 : List (String × β))
    (k : String) (h : assocFind k l1 = none) :
    assocFind k (l1 ++ l2) = assocFind k l2 := by
  induction l1 with
  | nil => rfl
  | cons hd tl ih =>
    obtain ⟨k2, v⟩ := hd
    by_cases hk : k = k2
    · subst hk
      simp [assocFind] at h
    · simp [assocFind, hk] at h ⊢
      exact ih h

/-! ## Claim theorems -/

section ClaimTheorems

attribute [local semireducible] Rat.mul Rat.inv Rat.add Rat.sub

/-- Claim C2, counterexample: the `SoundEffect` constructor does NOT clamp.
With `options.volume = 2` the stored `_volume` is 2, outside [0,1]; with
`options.playbackRate = 10` the stored rate is 10, outside [0.25,4.0]. -/
theorem C2_counterexample :
    (SoundEffect.construct { volume := some 2 }).vol = 2 ∧
    ¬ (SoundEffect.construct { volume := some 2 }).vol ≤ 1 ∧
    (SoundEffect.construct { playbackRate := some 10 }).audio.playbackRate = 10 ∧
    ¬ (SoundEffect.construct { playbackRate := some 10 }).audio.playbackRate ≤ 4 ∧
    (AudioManager.updateSettings
        { settings := defaultSettings, soundEffects := [], soundPools := [],
          store := { cells := [] } }
        { musicVolume := some 2 }).settings.musicVolume = 2 := by
  refine ⟨rfl, by decide, rfl, by decide, rfl⟩

/-- Claim C2, amended: `SoundEffect.setVolume` and `MusicPlayer.setVolume`
clamp the stored volume to [0,1], and the per-call `play()` overrides clamp
the applied volume to [0,1] and the applied playback rate to [0.25,4.0];
`SoundEffect` construction and `AudioManager.updateSettings` store the
supplied values unclamped. -/
theorem C2_clamping_amended (s : SEState) (mp : MPState) (m : AMState)
    (v r : ℚ) (hok : s.seError = false) :
    (SoundEffect.setVolume s v).vol = max 0 (min 1 v) ∧
    0 ≤ (SoundEffect.setVolume s v).vol ∧ (SoundEffect.setVolume s v).vol ≤ 1 ∧
    (MusicPlayer.setVolume mp v).vol = max 0 (min 1 v) ∧
    (SoundEffect.play s { volume := some v, playbackRate := some r }
        { loadOk := true, playOk := true }).audio.volume = max 0 (min 1 v) ∧
    (SoundEffect.play s { volume := some v, playbackRate := some r }
        { loadOk := true, playOk := true }).audio.playbackRate
      = max (1/4) (min 4 r) ∧
    (SoundEffect.construct { volume := some v }).vol = v ∧
    (SoundEffect.construct { playbackRate := some r }).audio.playbackRate = r ∧
    (AudioManager.updateSettings m { musicVolume := some v }).settings.musicVolume
      = v := by
  refine ⟨rfl, le_max_left _ _, max_le (by norm_num) (min_le_left _ _), ?_,
    ?_, ?_, rfl, rfl, rfl⟩
  · unfold MusicPlayer.setVolume
    cases hc : mp.currentTrack with
    | none => rfl
    | some t =>
      by_cases hm : mp.muted = false <;>
        simp [hc, hm, MusicPlayer.updateTrack, clampQ]
  all_goals
    unfold SoundEffect.play SoundEffect.playCore
    rcases hl : s.loaded with _ | _ <;> simp [hl, hok, clampQ]

/-- Claim C2 witness: the amended statement instantiated at a sound in the
non-error state with requested volume 3/2 and rate 5. -/
theorem C2_clamping_amended_witness :
    (SoundEffect.construct {}).seError = false ∧
    ((SoundEffect.setVolume (SoundEffect.construct {}) (3/2)).vol
        = max 0 (min 1 (3/2)) ∧
      0 ≤ (SoundEffect.setVolume (SoundEffect.construct {}) (3/2)).vol ∧
      (SoundEffect.setVolume (SoundEffect.construct {}) (3/2)).vol ≤ 1 ∧
      (MusicPlayer.setVolume
          { currentTrack := none, tracks := [], vol := 7/10, muted := false,
            fadeIntervals := [] } (3/2)).vol = max 0 (min 1 (3/2)) ∧
      (SoundEffect.play (SoundEffect.construct {})
          { volume := some (3/2), playbackRate := some 5 }
          { loadOk := true, playOk := true }).audio.volume
        = max 0 (min 1 (3/2)) ∧
      (SoundEffect.play (SoundEffect.construct {})
          { volume := some (3/2), playbackRate := some 5 }
          { loadOk := true, playOk := true }).audio.playbackRate
        = max (1/4) (min 4 5) ∧
      (SoundEffect.construct { volume := some (3/2) }).vol = 3/2 ∧
      (SoundEffect.construct { playbackRate := some 5 }).audio.playbackRate = 5 ∧
      (AudioManager.updateSettings
          { settings := defaultSettings, soundEffects := [], soundPools := [],
            store := { cells := [] } }
          { musicVolume := some (3/2) }).settings.musicVolume = 3/2) :=
  ⟨rfl, C2_clamping_amended (SoundEffect.construct {})
    { currentTrack := none, tracks := [], vol := 7/10, muted := false,
      fadeIntervals := [] }
    { settings := defaultSettings, soundEffects := [], soundPools := [],
      store := { cells := [] } }
    (3/2) 5 rfl⟩

/-- Claim C4: the volume `playSound` hands to the resolved instance is
`(overrides.volume ?? 1.0) × sfxVolume × masterVolume`, read from the settings
current at that call (so an intervening `updateSettings` changes the next
result), and at `overrides.volume = 0.5`, `sfxVolume = 0.8`,
`masterVolume = 0.5` the effective volume is 0.2. -/
theorem C4_effective_sfx_volume (m : AMState) (name : String)
    (ov : SoundEffect.PlayOverrides)
    (h1 : m.settings.muted = false) (h2 : m.settings.sfxMuted = false)
    (h3 : (AudioManager.resolveSound m name).isSome = true) :
    AudioManager.playSoundCallVolume m name ov
      = some (ov.volume.getD 1 * m.settings.sfxVolume * m.settings.masterVolume) ∧
    (∀ p : SettingsPatch,
      (mergeSettings m.settings p).muted = false →
      (mergeSettings m.settings p).sfxMuted = false →
      AudioManager.playSoundCallVolume (AudioManager.updateSettings m p) name ov
        = some (ov.volume.getD 1 * (mergeSettings m.settings p).sfxVolume
            * (mergeSettings m.settings p).masterVolume)) ∧
    AudioManager.finalVolume
      { masterVolume := 1/2, sfxVolume := 4/5, musicVolume := 7/10,
        muted := false, sfxMuted := false, musicMuted := false }
      { volume := some (1/2) } = 1/5 := by
  rcases hr : AudioManager.resolveSound m name with _ | r
  · rw [hr] at h3
    simp at h3
  · refine ⟨?_, ?_, by decide⟩
    · simp [AudioManager.playSoundCallVolume, h1, h2, hr,
        AudioManager.finalVolume]
    · intro p hp1 hp2
      have hr2 : AudioManager.resolveSound (AudioManager.updateSettings m p)
          name = AudioManager.resolveSound m name := rfl
      have hs : (AudioManager.updateSettings m p).settings
          = mergeSettings m.settings p := rfl
      unfold AudioManager.playSoundCallVolume
      rw [hr2, hr, hs, hp1, hp2]
      simp [AudioManager.finalVolume]

/-- Claim C4 witness: a manager holding one catalog sound, with
`sfxVolume = 0.8` and `masterVolume = 0.5`, at override volume 0.5. -/
theorem C4_effective_sfx_volume_witness :
    ({ settings := { masterVolume := 1/2, sfxVolume := 4/5, musicVolume := 7/10,
                     muted := false, sfxMuted := false, musicMuted := false },
       soundEffects := [("coin", SoundEffect.construct {})], soundPools := [],
       store := { cells := [] } } : AMState).settings.muted = false ∧
    (AudioManager.resolveSound
      { settings := { masterVolume := 1/2, sfxVolume := 4/5, musicVolume := 7/10,
                      muted := false, sfxMuted := false, musicMuted := false },
        soundEffects := [("coin", SoundEffect.construct {})], soundPools := [],
        store := { cells := [] } } "coin").isSome = true ∧
    AudioManager.playSoundCallVolume
      { settings := { masterVolume := 1/2, sfxVolume := 4/5, musicVolume := 7/10,
                      muted := false, sfxMuted := false, musicMuted := false },
        soundEffects := [("coin", SoundEffect.construct {})], soundPools := [],
        store := { cells := [] } } "coin" { volume := some (1/2) }
      = some ((some (1/2 : ℚ)).getD 1 * (4/5) * (1/2)) :=
  ⟨rfl, by decide,
    (C4_effective_sfx_volume _ "coin" { volume := some (1/2) } rfl rfl
      (by decide)).1⟩

/-- Claim C8: `updateSettings` merges the patch into the full settings object
and persists the whole object under the fixed key, and a manager constructed
from that store reads it back merged over the in-code defaults, reproducing
the updated settings exactly; in particular `updateSettings({musicVolume:0.3})`
followed by reconstruction yields `getSettings().musicVolume = 0.3`. -/
theorem C8_settings_round_trip (m : AMState) (p : SettingsPatch) :
    (AudioManager.updateSettings m p).settings = mergeSettings m.settings p ∧
    assocFind settingsKey (AudioManager.updateSettings m p).store.cells
      = some (settingsToPatch (mergeSettings m.settings p)) ∧
    (AudioManager.construct (AudioManager.updateSettings m p).store).settings
      = mergeSettings m.settings p ∧
    (AudioManager.getSettings (AudioManager.construct
        (AudioManager.updateSettings m { musicVolume := some (3/10) }).store)
      ).musicVolume = 3/10 := by
  have hback : ∀ x : Settings,
      mergeSettings defaultSettings (settingsToPatch x) = x := fun _ => rfl
  refine ⟨rfl, ?_, ?_, ?_⟩ <;>
    simp [AudioManager.updateSettings, AudioManager.construct,
      AudioManager.getSettings, saveSettings, loadSettings, assocFind,
      settingsKey, hback, mergeSettings, settingsToPatch]

/-- Claim C6: a `SoundEffect` in the error state returns from `play()` with
the state unchanged (no transport start, no field writes); and for every
input, every load or transport failure inside `play` is caught locally (the
method returns the state as mutated at the failure point, re-raising
nothing), and `AudioManager.playSound` likewise returns normally for every
environment, never touching the settings or the persisted store. -/
theorem C6_playback_failures_recovered (s : SEState)
    (ov : SoundEffect.PlayOverrides) (env : SoundEffect.PlayEnv)
    (hs : s.seError = true) :
    SoundEffect.play s ov env = s ∧
    (∀ (s2 : SEState) (ov2 : SoundEffect.PlayOverrides)
        (env2 : SoundEffect.PlayEnv),
      (∃ s3, SoundEffect.playCore s2 ov2 env2 = Except.ok s3 ∧
          SoundEffect.play s2 ov2 env2 = s3) ∨
      (∃ r, SoundEffect.playCore s2 ov2 env2 = Except.error r ∧
          SoundEffect.play s2 ov2 env2 = r.1)) ∧
    (∀ (m : AMState) (name : String) (ov2 : SoundEffect.PlayOverrides)
        (env2 : SoundEffect.PlayEnv),
      (AudioManager.playSound m name ov2 env2).settings = m.settings ∧
      (AudioManager.playSound m name ov2 env2).store = m.store) := by
  refine ⟨?_, ?_, ?_⟩
  · simp [SoundEffect.play, SoundEffect.playCore, hs]
  · intro s2 ov2 env2
    rcases hc : SoundEffect.playCore s2 ov2 env2 with e | s3
    · exact Or.inr ⟨e, rfl, by simp [SoundEffect.play, hc]⟩
    · exact Or.inl ⟨s3, rfl, by simp [SoundEffect.play, hc]⟩
  · intro m name ov2 env2
    unfold AudioManager.playSound
    by_cases hmut : (m.settings.muted || m.settings.sfxMuted) = true
    · simp [hmut]
    · rcases hres : AudioManager.resolveSound m name with _ | r
      · simp [hmut, hres]
      · cases r <;> simp [hmut, hres]

/-- Claim C6 witness: a sound constructed and then marked errored. -/
theorem C6_playback_failures_recovered_witness :
    ({ (SoundEffect.construct {}) with seError := true } : SEState).seError
        = true ∧
    SoundEffect.play { (SoundEffect.construct {}) with seError := true } {}
        { loadOk := true, playOk := true }
      = { (SoundEffect.construct {}) with seError := true } :=
  ⟨rfl, (C6_playback_failures_recovered
    { (SoundEffect.construct {}) with seError := true } {}
    { loadOk := true, playOk := true } rfl).1⟩

/-- Claim C7, behaviour at the failing input: `pause()` on a playing,
unmuted player with the default (positive) fade duration runs the fade-out —
the output level reaches 0 — but never calls `currentTrack.pause()`, so the
transport is still playing when the call completes; the muted branch does
pause the transport. The method documentation and the spec both describe
`pause` as a transport pause. -/
theorem C7_pause_missing_transport_pause :
    MusicPlayer.isPlaying (MusicPlayer.pause
      { currentTrack := some "m",
        tracks := [("m", { volume := 7/10, playbackRate := 1, paused := false,
                           currentTime := 5, ended := false })],
        vol := 7/10, muted := false, fadeIntervals := [] } none) = true ∧
    ((MusicPlayer.getTrack (MusicPlayer.pause
      { currentTrack := some "m",
        tracks := [("m", { volume := 7/10, playbackRate := 1, paused := false,
                           currentTime := 5, ended := false })],
        vol := 7/10, muted := false, fadeIntervals := [] } none) "m").map
      (fun el => (el.paused, el.volume))) = some (false, 0) ∧
    ((MusicPlayer.getTrack (MusicPlayer.pause
      { currentTrack := some "m",
        tracks := [("m", { volume := 7/10, playbackRate := 1, paused := false,
                           currentTime := 5, ended := false })],
        vol := 7/10, muted := true, fadeIntervals := [] } none) "m").map
      AudioElem.paused) = some true := by
  refine ⟨by decide, by decide, by decide⟩

theorem fadeInTickLevel_mono (v : ℚ) (hv : 0 ≤ v) (k : ℕ) :
    MusicPlayer.fadeInTickLevel v k ≤ MusicPlayer.fadeInTickLevel v (k + 1) := by
  unfold MusicPlayer.fadeInTickLevel
  apply min_le_min le_rfl
  simp only [zero_add]
  apply mul_le_mul_of_nonneg_left ?_ (div_nonneg (by linarith) (by norm_num))
  exact_mod_cast Nat.le_succ k

theorem fadeInLoop_chain (v : ℚ) (hv : 0 ≤ v) (k fuel : ℕ) :
    List.Chain (· ≤ ·) (MusicPlayer.fadeInTickLevel v k)
      (MusicPlayer.fadeInLoop v k fuel) := by
  induction fuel generalizing k with
  | zero => exact List.Chain.nil
  | succ fuel ih =>
    unfold MusicPlayer.fadeInLoop
    by_cases hd : 60 ≤ k + 1 ∨ v ≤ MusicPlayer.fadeInTickLevel v (k + 1)
    · rw [if_pos hd]
      exact List.Chain.cons (fadeInTickLevel_mono v hv k)
        (List.Chain.cons (min_le_left _ _) List.Chain.nil)
    · rw [if_neg hd]
      exact List.Chain.cons (fadeInTickLevel_mono v hv k) (ih (k + 1))

theorem fadeInLoop_le (v : ℚ) (k fuel : ℕ) :
    ∀ x ∈ MusicPlayer.fadeInLoop v k fuel, x ≤ v := by
  induction fuel generalizing k with
  | zero =>
    intro x hx
    simp [MusicPlayer.fadeInLoop] at hx
  | succ fuel ih =>
    intro x hx
    unfold MusicPlayer.fadeInLoop at hx
    by_cases hd : 60 ≤ k + 1 ∨ v ≤ MusicPlayer.fadeInTickLevel v (k + 1)
    · rw [if_pos hd] at hx
      simp only [List.mem_cons, List.mem_singleton, List.not_mem_nil] at hx
      rcases hx with hx | hx | hx
      · exact hx ▸ min_le_left _ _
      · exact le_of_eq hx
      · exact absurd hx (by simp)
    · rw [if_neg hd] at hx
      rcases List.mem_cons.mp hx with hx | hx
      · exact hx ▸ min_le_left _ _
      · exact ih (k + 1) x hx

theorem fadeInLoop_getLast (v : ℚ) (k fuel : ℕ) (h : 60 ≤ k + fuel)
    (hf : 0 < fuel) :
    (MusicPlayer.fadeInLoop v k fuel).getLast? = some v := by
  induction fuel generalizing k with
  | zero => omega
  | succ fuel ih =>
    unfold MusicPlayer.fadeInLoop
    by_cases hd : 60 ≤ k + 1 ∨ v ≤ MusicPlayer.fadeInTickLevel v (k + 1)
    · rw [if_pos hd]
      rfl
    · rw [if_neg hd]
      push_neg at hd
      have hf2 : 0 < fuel := by omega
      have h2 : 60 ≤ (k + 1) + fuel := by omega
      have hrest := ih (k + 1) h2 hf2
      cases hr : MusicPlayer.fadeInLoop v (k + 1) fuel with
      | nil =>
        rw [hr] at hrest
        simp at hrest
      | cons b t =>
        rw [hr] at hrest
        rw [List.getLast?_cons_cons]
        exact hrest

/-- Claim C3: in `fadeIn`, the level written at tick `k` is
`min(target, start + step·k)` with `start = 0` and `step = (target − 0)/60`:
across the 60 ticks the written levels are non-decreasing and never exceed
the target, each tick adds `(target − 0)/60` clamped at the target, and the
ramp terminates (step budget exhausted or target reached, whichever first)
with the exact target as the final written level. -/
theorem C3_fade_in_monotone_exact (v : ℚ) (hv : 0 ≤ v) :
    (∀ k, MusicPlayer.fadeInTickLevel v k ≤ MusicPlayer.fadeInTickLevel v (k + 1)) ∧
    (∀ k, MusicPlayer.fadeInTickLevel v k ≤ v) ∧
    (∀ k, MusicPlayer.fadeInTickLevel v (k + 1)
        = min v (MusicPlayer.fadeInTickLevel v k + (v - 0) / 60)) ∧
    List.Chain (· ≤ ·) 0 (MusicPlayer.fadeInLevels v) ∧
    (∀ x ∈ MusicPlayer.fadeInLevels v, x ≤ v) ∧
    (MusicPlayer.fadeInLevels v).getLast? = some v := by
  have h0 : MusicPlayer.fadeInTickLevel v 0 = 0 := by
    unfold MusicPlayer.fadeInTickLevel
    simp [min_eq_right hv]
  refine ⟨fadeInTickLevel_mono v hv, fun k => min_le_left _ _, ?_, ?_,
    fadeInLoop_le v 0 60, fadeInLoop_getLast v 0 60 (by omega) (by omega)⟩
  · intro k
    unfold MusicPlayer.fadeInTickLevel
    simp only [sub_zero, zero_add]
    push_cast
    have hc : 0 ≤ v / 60 := div_nonneg hv (by norm_num)
    rcases le_total v (v / 60 * (k : ℚ)) with h | h
    · have h1 : v ≤ v / 60 * ((k : ℚ) + 1) := by nlinarith
      rw [min_eq_left h1, min_eq_left h, min_eq_left (by linarith)]
    · have h2 : v / 60 * ((k : ℚ) + 1) = v / 60 * (k : ℚ) + v / 60 := by ring
      rw [min_eq_right h, h2]
  · have := fadeInLoop_chain v hv 0 60
    rw [h0] at this
    exact this

/-- Claim C3 witness: the fade to target volume 0.7. -/
theorem C3_fade_in_monotone_exact_witness :
    0 ≤ (7 : ℚ) / 10 ∧
    ((∀ k, MusicPlayer.fadeInTickLevel (7/10) k
        ≤ MusicPlayer.fadeInTickLevel (7/10) (k + 1)) ∧
      (∀ k, MusicPlayer.fadeInTickLevel (7/10) k ≤ 7/10) ∧
      (∀ k, MusicPlayer.fadeInTickLevel (7/10) (k + 1)
          = min (7/10) (MusicPlayer.fadeInTickLevel (7/10) k + (7/10 - 0) / 60)) ∧
      List.Chain (· ≤ ·) 0 (MusicPlayer.fadeInLevels (7/10)) ∧
      (∀ x ∈ MusicPlayer.fadeInLevels (7/10), x ≤ 7/10) ∧
      (MusicPlayer.fadeInLevels (7/10)).getLast? = some (7/10)) :=
  ⟨by norm_num, C3_fade_in_monotone_exact (7/10) (by norm_num)⟩

theorem findIdx?_first {α : Type} (p : α → Bool) (l : List α) (i : ℕ) (x : α)
    (hi : l.get? i = some x) (hx : p x = true)
    (hbef : ∀ j y, j < i → l.get? j = some y → p y = false) :
    l.findIdx? p = some i := by
  induction l generalizing i with
  | nil => simp at hi
  | cons a t ih =>
    cases i with
    | zero =>
      rw [List.get?_cons_zero] at hi
      injection hi with hi
      subst hi
      simp [List.findIdx?_cons, hx]
    | succ i =>
      have ha : p a = false := hbef 0 a (Nat.succ_pos i) rfl
      rw [List.get?_cons_succ] at hi
      have hbef2 : ∀ j y, j < i → t.get? j = some y → p y = false :=
        fun j y hj hg => hbef (j + 1) y (Nat.succ_lt_succ hj) hg
      simp [List.findIdx?_cons, ha, ih i hi hbef2]

theorem map_keyLen_update {β : Type} (pools : List (String × List β))
    (n : String) (g : List β → List β) (hg : ∀ l, (g l).length = l.length) :
    (pools.map (updatePair n g)).map (fun p => (p.1, p.2.length))
      = pools.map (fun p => (p.1, p.2.length)) := by
  induction pools with
  | nil => rfl
  | cons hd tl ih =>
    obtain ⟨k, v⟩ := hd
    rw [List.map_cons]
    by_cases hk : k = n
    · subst hk
      rw [updatePair_eq]
      simp [hg, ih]
    · rw [updatePair_ne k n g v hk]
      simp [ih]

/-- Claim C5: pooled resolution returns the first clone whose `playing` getter
is false; when every clone of the pool is playing it falls back to the first
clone (index 0), which a subsequent `playSound` then cuts and restarts; no
`playSound` call changes the names or sizes of the pools, and
`createSoundPool` creates exactly `poolSize` clones; concretely, four
overlapping `playSound` calls on a 3-clone pool leave the pool at 3 clones
with the fourth call restarting clone 0. -/
theorem C5_pool_exhaustion_reuse (m : AMState) (name : String)
    (pool : List PoolEntry)
    (hp : assocFind name m.soundPools = some pool) (h3 : pool.length = 3) :
    ((∀ e ∈ pool, SoundEffect.playing e.st = true) →
      AudioManager.getPooledSound m.soundPools name
        = (pool.get? 0).map fun e => (0, e)) ∧
    (∀ i e, pool.get? i = some e → SoundEffect.playing e.st = false →
      (∀ j y, j < i → pool.get? j = some y →
        SoundEffect.playing y.st = true) →
      AudioManager.getPooledSound m.soundPools name = some (i, e)) ∧
    (∀ (nm : String) (ov : SoundEffect.PlayOverrides)
        (env : SoundEffect.PlayEnv),
      ((AudioManager.playSound m nm ov env).soundPools).map
          (fun p => (p.1, p.2.length))
        = m.soundPools.map (fun p => (p.1, p.2.length))) ∧
    (∀ (nm : String) (opts : SoundOptions) (k : ℕ),
      (AudioManager.createSoundPool nm opts k).length = k) ∧
    (assocFind "coin" (AudioManager.coinStep (AudioManager.coinStep
        (AudioManager.coinStep AudioManager.coinPoolManager))).soundPools).map
        (List.map fun e => SoundEffect.playing e.st) = some [true, true, true] ∧
    (AudioManager.getPooledSound (AudioManager.coinStep (AudioManager.coinStep
        (AudioManager.coinStep AudioManager.coinPoolManager))).soundPools
        "coin").map Prod.fst = some 0 ∧
    (assocFind "coin" (AudioManager.playSound (AudioManager.coinStep
        (AudioManager.coinStep (AudioManager.coinStep
          AudioManager.coinPoolManager))) "coin" {}
        { loadOk := true, playOk := true }).soundPools).map List.length
      = some 3 ∧
    (assocFind "coin" (AudioManager.playSound (AudioManager.coinStep
        (AudioManager.coinStep (AudioManager.coinStep
          AudioManager.coinPoolManager))) "coin" {}
        { loadOk := true, playOk := true }).soundPools).map
        (List.map fun e => e.st.audio.currentTime) = some [0, 2/10, 1/10] := by
  refine ⟨?_, ?_, ?_, ?_, by decide, by decide, by decide, by decide⟩
  · intro hall
    unfold AudioManager.getPooledSound
    rw [hp]
    have hnone : pool.findIdx? (fun e => !SoundEffect.playing e.st) = none := by
      rw [List.findIdx?_eq_none_iff]
      intro e he
      simp [hall e he]
    simp [hnone]
  · intro i e hi hnp hbef
    unfold AudioManager.getPooledSound
    rw [hp]
    have hidx : pool.findIdx? (fun e => !SoundEffect.playing e.st) = some i := by
      apply findIdx?_first _ _ i e hi (by simp [hnp])
      intro j y hj hg
      simp [hbef j y hj hg]
    simp only [hidx]
    rw [hi]
    rfl
  · intro nm ov env
    unfold AudioManager.playSound
    by_cases hmut : (m.settings.muted || m.settings.sfxMuted) = true
    · rw [if_pos hmut]
    · rw [if_neg hmut]
      rcases hres : AudioManager.resolveSound m nm with _ | r
      · rfl
      · cases r with
        | pooled i e =>
          simp only [AudioManager.setPoolEntry]
          exact map_keyLen_update m.soundPools nm _
            (fun l => List.length_mapIdx)
        | catalog s2 => rfl
  · intro nm opts k
    simp [AudioManager.createSoundPool]

/-- Claim C5 witness: the 3-clone coin pool, every clone playing. -/
theorem C5_pool_exhaustion_reuse_witness :
    assocFind "coin" (AudioManager.coinStep (AudioManager.coinStep
        (AudioManager.coinStep AudioManager.coinPoolManager))).soundPools
      = some ((AudioManager.coinStep (AudioManager.coinStep
          (AudioManager.coinStep
            AudioManager.coinPoolManager))).soundPools.head?.getD
          ("coin", [])).2 ∧
    (AudioManager.getPooledSound (AudioManager.coinStep (AudioManager.coinStep
        (AudioManager.coinStep AudioManager.coinPoolManager))).soundPools
        "coin").map Prod.fst = some 0 := by
  constructor
  · decide
  · exact (C5_pool_exhaustion_reuse
      (AudioManager.coinStep (AudioManager.coinStep
        (AudioManager.coinStep AudioManager.coinPoolManager)))
      "coin"
      ((AudioManager.coinStep (AudioManager.coinStep
        (AudioManager.coinStep
          AudioManager.coinPoolManager))).soundPools.head?.getD
        ("coin", [])).2
      (by decide) (by decide)).2.2.2.2.2.1

theorem cfStep_currentTrack (a b : String) (startA target : ℚ)
    (e : MusicPlayer.CfEv) (s : MPState) :
    (MusicPlayer.cfStep a b startA target e s).currentTrack = s.currentTrack := by
  cases e <;> rfl

theorem cfStates_currentTrack (a b : String) (startA target : ℚ)
    (evs : List MusicPlayer.CfEv) (s : MPState) :
    ∀ st ∈ MusicPlayer.cfStates s a b startA target evs,
      st.currentTrack = s.currentTrack := by
  induction evs generalizing s with
  | nil =>
    intro st h
    simp [MusicPlayer.cfStates] at h
  | cons e rest ih =>
    intro st h
    unfold MusicPlayer.cfStates at h
    rcases List.mem_cons.mp h with h | h
    · rw [h, cfStep_currentTrack]
    · rw [ih _ st h, cfStep_currentTrack]

/-- Claim C1: along every interleaving of the two crossfade ramps, every
state before the final cleanup block keeps the old track as the
current-track reference, and exactly the last state of the trace carries the
new track; the cleanup block is also what stops and resets the old track;
and when starting playback of the target fails, the crossfade returns a
state whose current-track reference, old-track element, mute flag, stored
volume and live-interval set all equal those of the entry state. -/
theorem C1_crossfade_atomicity (s : MPState) (a b : String)
    (evs : List MusicPlayer.CfEv)
    (hcur : s.currentTrack = some a) (hab : a ≠ b) :
    (∀ st ∈ (MusicPlayer.crossfadeTrace s a b evs).dropLast,
      st.currentTrack = some a) ∧
    ((MusicPlayer.crossfadeTrace s a b evs).getLast?).map MPState.currentTrack
      = some (some b) ∧
    (∀ s2 : MPState,
      MusicPlayer.getTrack (MusicPlayer.crossfadeCleanup s2 a b) a
        = (MusicPlayer.getTrack s2 a).map
            (fun el => { el with paused := true, currentTime := 0 })) ∧
    (MusicPlayer.crossfadeFailed s b).currentTrack = s.currentTrack ∧
    MusicPlayer.getTrack (MusicPlayer.crossfadeFailed s b) a
      = MusicPlayer.getTrack s a ∧
    (MusicPlayer.crossfadeFailed s b).muted = s.muted ∧
    (MusicPlayer.crossfadeFailed s b).vol = s.vol ∧
    (MusicPlayer.crossfadeFailed s b).fadeIntervals = s.fadeIntervals := by
  have htr : MusicPlayer.crossfadeTrace s a b evs
      = (s :: MusicPlayer.crossfadePlayB (MusicPlayer.crossfadeInit s b) b ::
          MusicPlayer.cfStates
            (MusicPlayer.crossfadePlayB (MusicPlayer.crossfadeInit s b) b) a b
            (MusicPlayer.trackVolume
              (MusicPlayer.crossfadePlayB (MusicPlayer.crossfadeInit s b) b) a)
            s.vol evs) ++
        [MusicPlayer.crossfadeCleanup
          ((MusicPlayer.cfStates
              (MusicPlayer.crossfadePlayB (MusicPlayer.crossfadeInit s b) b) a b
              (MusicPlayer.trackVolume
                (MusicPlayer.crossfadePlayB (MusicPlayer.crossfadeInit s b) b) a)
              s.vol evs).getLast?.getD
            (MusicPlayer.crossfadePlayB (MusicPlayer.crossfadeInit s b) b)) a b] := by
    rfl
  have hs1cur : (MusicPlayer.crossfadePlayB
      (MusicPlayer.crossfadeInit s b) b).currentTrack = s.currentTrack := rfl
  refine ⟨?_, ?_, ?_, rfl, ?_, rfl, rfl, rfl⟩
  · intro st h
    rw [htr, List.dropLast_concat] at h
    rcases List.mem_cons.mp h with h | h
    · rw [h]; exact hcur
    · rcases List.mem_cons.mp h with h | h
      · rw [h, hs1cur]; exact hcur
      · rw [cfStates_currentTrack _ _ _ _ _ _ st h, hs1cur]; exact hcur
  · rw [htr, List.getLast?_concat]
    rfl
  · intro s2
    unfold MusicPlayer.crossfadeCleanup MusicPlayer.getTrack
      MusicPlayer.updateTrack
    exact assocFind_update_eq s2.tracks a _
  · unfold MusicPlayer.crossfadeFailed MusicPlayer.crossfadeInit
      MusicPlayer.getTrack MusicPlayer.updateTrack
    exact assocFind_update_ne s.tracks a b _ hab

/-- Claim C1 witness: a crossfade from track a to track b on the two-track
player, under one concrete interleaving of the ramps. -/
theorem C1_crossfade_atomicity_witness :
    MusicPlayer.cfScenarioStart.currentTrack = some "a" ∧
    "a" ≠ "b" ∧
    ((MusicPlayer.crossfadeTrace MusicPlayer.cfScenarioStart "a" "b"
        [MusicPlayer.CfEv.tickA 1, MusicPlayer.CfEv.tickB 1,
         MusicPlayer.CfEv.finA, MusicPlayer.CfEv.finB]).getLast?).map
      MPState.currentTrack = some (some "b") :=
  ⟨rfl, by decide,
    (C1_crossfade_atomicity MusicPlayer.cfScenarioStart "a" "b"
      [MusicPlayer.CfEv.tickA 1, MusicPlayer.CfEv.tickB 1,
       MusicPlayer.CfEv.finA, MusicPlayer.CfEv.finB] rfl (by decide)).2.1⟩

/-- Claim C10: `play(track)` on a muted player with no current track still
promotes the track to current and starts its transport, but schedules no fade
ramp, and the output level set to 0 at load stays 0; `setMuted(false)`
afterwards restores the stored volume. -/
theorem C10_muted_play_silent_current (s : MPState) (name : String)
    (evs : List MusicPlayer.CfEv)
    (hm : s.muted = true) (hc : s.currentTrack = none)
    (hf : assocFind name s.tracks = none) :
    (MusicPlayer.play s name { loadOk := true, playOk := true } evs).currentTrack
        = some name ∧
    (MusicPlayer.getTrack
        (MusicPlayer.play s name { loadOk := true, playOk := true } evs) name).map
        (fun el => (el.paused, el.volume)) = some (false, 0) ∧
    (MusicPlayer.play s name { loadOk := true, playOk := true } evs).fadeIntervals
        = s.fadeIntervals ∧
    MusicPlayer.trackVolume
        (MusicPlayer.setMuted
          (MusicPlayer.play s name { loadOk := true, playOk := true } evs) false)
        name
      = (MusicPlayer.play s name { loadOk := true, playOk := true } evs).vol := by
  have hload : MusicPlayer.loadTrack s name =
      { s with tracks := s.tracks ++
          [(name, { volume := 0, playbackRate := 1, paused := true,
                    currentTime := 0, ended := false })] } := by
    simp [MusicPlayer.loadTrack, hf]
  have hplay : MusicPlayer.play s name { loadOk := true, playOk := true } evs
      = MusicPlayer.playFreshBranch (MusicPlayer.loadTrack s name) name true := by
    unfold MusicPlayer.play
    rw [if_neg (by simp)]
    have hcur : (MusicPlayer.loadTrack s name).currentTrack = none := by
      rw [hload]; exact hc
    simp only [hcur]
  have hmut : (MusicPlayer.loadTrack s name).muted = true := by
    rw [hload]; exact hm
  have hbranch : MusicPlayer.playFreshBranch (MusicPlayer.loadTrack s name)
      name true
      = MusicPlayer.updateTrack
          (MusicPlayer.updateTrack
            { MusicPlayer.loadTrack s name with currentTrack := some name }
            name (fun el => { el with currentTime := 0 }))
          name (fun el => { el with paused := false, ended := false }) := by
    unfold MusicPlayer.playFreshBranch
    rw [if_pos rfl, if_neg (by simp [MusicPlayer.updateTrack, hmut])]
  have hfind : assocFind name (MusicPlayer.loadTrack s name).tracks
      = some { volume := 0, playbackRate := 1, paused := true,
               currentTime := 0, ended := false } := by
    rw [hload]
    simp only []
    rw [assocFind_append_right _ _ _ hf]
    simp [assocFind]
  refine ⟨?_, ?_, ?_, ?_⟩
  · rw [hplay, hbranch]
    rfl
  · rw [hplay, hbranch]
    unfold MusicPlayer.getTrack
    unfold MusicPlayer.updateTrack
    simp only []
    rw [assocFind_update_eq, assocFind_update_eq]
    simp [hfind]
  · rw [hplay, hbranch, hload]
    rfl
  · rw [hplay, hbranch]
    generalize hq :
      MusicPlayer.updateTrack
        (MusicPlayer.updateTrack
          { MusicPlayer.loadTrack s name with currentTrack := some name }
          name (fun el => { el with currentTime := 0 }))
        name (fun el => { el with paused := false, ended := false }) = q
    have hqc : q.currentTrack = some name := by
      rw [← hq]; rfl
    have hqf : (assocFind name q.tracks).isSome = true := by
      rw [← hq]
      unfold MusicPlayer.updateTrack
      simp only []
      rw [assocFind_update_eq, assocFind_update_eq]
      simp [hfind]
    unfold MusicPlayer.setMuted MusicPlayer.trackVolume
    rw [hqc]
    simp only []
    unfold MusicPlayer.updateTrack
    simp only []
    rw [assocFind_update_eq]
    rcases ha : assocFind name q.tracks with _ | el
    · rw [ha] at hqf
      simp at hqf
    · simp

/-- Claim C10 witness: a muted player with an empty cache playing a fresh
track. -/
theorem C10_muted_play_silent_current_witness :
    ({ currentTrack := none, tracks := [], vol := 7/10, muted := true,
       fadeIntervals := [] } : MPState).muted = true ∧
    (MusicPlayer.play
      { currentTrack := none, tracks := [], vol := 7/10, muted := true,
        fadeIntervals := [] } "bgm" { loadOk := true, playOk := true }
      []).currentTrack = some "bgm" :=
  ⟨rfl, (C10_muted_play_silent_current
    { currentTrack := none, tracks := [], vol := 7/10, muted := true,
      fadeIntervals := [] } "bgm" [] rfl rfl rfl).1⟩

theorem flatMap_pair_get {α : Type} (f : α → List ℕ)
    (hf : ∀ x, (f x).length = 2) (l : List α) (i j : ℕ) (x : α)
    (hi : l[i]? = some x) (hj : j < 2) :
    (l.flatMap f)[2 * i + j]? = (f x)[j]? := by
  induction l generalizing i with
  | nil => simp at hi
  | cons a t ih =>
    cases i with
    | zero =>
      rw [List.getElem?_cons_zero] at hi
      injection hi with hi
      subst hi
      rw [List.flatMap_cons]
      rw [List.getElem?_append_left (by rw [hf a]; omega)]
      norm_num
    | succ i =>
      rw [List.getElem?_cons_succ] at hi
      rw [List.flatMap_cons]
      rw [List.getElem?_append_right (by rw [hf a]; omega)]
      have harith : 2 * (i + 1) + j - (f a).length = 2 * i + j := by
        rw [hf a]; omega
      rw [harith]
      exact ih i hi

set_option maxHeartbeats 1600000 in
/-- Claim C9: the tone generator emits one mono channel: its `i`-th raw
sample at `t = i/sampleRate` equals `waveform(2π f t) × e^(−3t) × 0.3` for
each oscillator type; the encoder writes a little-endian container whose
header carries channel count 1 (offset 22) and 16 bits per sample (offset
34), and whose `i`-th data word is the raw sample clamped to [−1,1], scaled
by 32767 (= 0x7FFF), truncated and stored as two little-endian bytes at
offsets 44 + 2i and 44 + 2i + 1. -/
theorem C9_generator_and_encoder {R : Type} [LinearOrderedField R]
    [FloorRing R] (M : MathR R) (samples : List R) (sr i : ℕ) (x : R)
    (hpi : (2 : R) * M.rpi ≠ 0) (hi : samples[i]? = some x) :
    (∀ (frequency sampleRate : R) (ty : OscType) (j : ℕ),
      AudioGenerator.generateBeepSample M frequency sampleRate ty j
        = AudioGenerator.beepSampleSpec M (AudioGenerator.oscFn M ty)
            frequency sampleRate j) ∧
    (AudioGenerator.wavHeader samples.length sr).length = 44 ∧
    (AudioGenerator.wavHeader samples.length sr)[22]? = some 1 ∧
    (AudioGenerator.wavHeader samples.length sr)[23]? = some 0 ∧
    (AudioGenerator.wavHeader samples.length sr)[34]? = some 16 ∧
    (AudioGenerator.wavHeader samples.length sr)[35]? = some 0 ∧
    (∀ y : R, -1 ≤ y → y ≤ 1 →
      AudioGenerator.encodeSample y = AudioGenerator.jsTrunc (y * 32767)) ∧
    (AudioGenerator.audioBufferToWav samples sr)[44 + (2 * i + 0)]?
      = some (AudioGenerator.toUint16 (AudioGenerator.encodeSample x) % 256) ∧
    (AudioGenerator.audioBufferToWav samples sr)[44 + (2 * i + 1)]?
      = some (AudioGenerator.toUint16 (AudioGenerator.encodeSample x) / 256) := by
  have hlen : (AudioGenerator.wavHeader samples.length sr).length = 44 := rfl
  have hdata : ∀ j : ℕ, j < 2 →
      (AudioGenerator.audioBufferToWav samples sr)[44 + (2 * i + j)]?
        = (AudioGenerator.i16le (AudioGenerator.encodeSample x))[j]? := by
    intro j hj
    unfold AudioGenerator.audioBufferToWav
    rw [List.getElem?_append_right (by rw [hlen]; omega)]
    have harith : 44 + (2 * i + j)
        - (AudioGenerator.wavHeader samples.length sr).length = 2 * i + j := by
      rw [hlen]; omega
    rw [harith]
    exact flatMap_pair_get
      (fun y => AudioGenerator.i16le (AudioGenerator.encodeSample y))
      (fun y => rfl) samples i j x hi hj
  refine ⟨?_, hlen, rfl, rfl, rfl, rfl, ?_, ?_, ?_⟩
  · intro frequency sampleRate ty j
    have harg : (-((j : R) / sampleRate) * 3)
        = -(3 * ((j : R) / sampleRate)) := by ring
    have hdiv : 2 * M.rpi * frequency * ((j : R) / sampleRate) / (2 * M.rpi)
        = frequency * ((j : R) / sampleRate) := by
      rw [show 2 * M.rpi * frequency * ((j : R) / sampleRate)
          = 2 * M.rpi * (frequency * ((j : R) / sampleRate)) by ring]
      exact mul_div_cancel_left₀ _ hpi
    cases ty <;>
      simp only [AudioGenerator.generateBeepSample,
        AudioGenerator.beepSampleSpec, AudioGenerator.waveSample,
        AudioGenerator.oscFn, harg, hdiv]
  · intro y h1 h2
    unfold AudioGenerator.encodeSample AudioGenerator.clampSample
    rw [min_eq_right h2, max_eq_right h1]
  · exact hdata 0 (by omega)
  · exact hdata 1 (by omega)

/-- Claim C9 witness: the rational instance with placeholder host functions
(`rpi = 3`, so `2·rpi ≠ 0`) and the one-sample buffer `[1/2]`. -/
theorem C9_generator_and_encoder_witness :
    ((2 : ℚ) * (⟨fun y => y, fun y => y, 3⟩ : MathR ℚ).rpi ≠ 0) ∧
    (([(1 : ℚ)/2])[0]? = some (1/2)) ∧
    (AudioGenerator.audioBufferToWav [(1 : ℚ)/2] 8000)[44 + (2 * 0 + 0)]?
      = some (AudioGenerator.toUint16
          (AudioGenerator.encodeSample ((1 : ℚ)/2)) % 256) :=
  ⟨by norm_num, rfl,
    (C9_generator_and_encoder (⟨fun y => y, fun y => y, 3⟩ : MathR ℚ)
      [(1 : ℚ)/2] 8000 0 (1/2) (by norm_num) rfl).2.2.2.2.2.2.2.1⟩

end ClaimTheorems

end Audio
